import Mathlib

/-!
Verification development for the `terraform-provider-ic` repository
(`internal/provider/arg.go`, `internal/provider/canister_resource.go`,
`internal/provider/identity.go`).

The Go sources are shallowly embedded: pure helpers become Lean functions,
fallible Go functions return `Except`, and every remote management-canister
call made by the resource reconciler is recorded in an explicit trace while
its outcome is supplied by an oracle environment (`Env`) that stands for the
external agent, ledger, file system and crypto collaborators.
-/

namespace Ic

/-! ## Terraform dynamic values and candid intermediate values (`arg.go`)

`tftypes.Value` is modelled by the inductive `TFVal`: a string, an
object/map of string keys to values, or one of the primitive kinds the
encoder does not support (numbers, booleans), for which every `val.As`
conversion attempted by `arg.go` fails.  Null/unknown dynamic values are not
modelled: the reconciler only encodes known plan values.
-/

inductive TFVal where
  | str (s : String)
  | obj (fields : List (String × TFVal))
  | num (n : Int)
  | bool (b : Bool)
deriving Repr

/-- Result values of `TFValToCandid`: the Go code returns `any`, which is
either a Go `string` (candid text) or a `map[string]any` (candid record).
The Go map is unordered; the model keeps the field list in input order,
which is irrelevant to the claims proved below. -/
inductive CandidVal where
  | text (s : String)
  | record (fields : List (String × CandidVal))
deriving Repr

/-- Structural model of the error values produced by `arg.go`.  Each
constructor corresponds to one `fmt.Errorf` site and carries the data that
the Go message interpolates (in particular `unknownIdlType` carries the
unrecognized tag, mirroring `"unknown idl type %s for val %v"`). -/
inductive EncErr where
  | notWrapped (v : TFVal)
  | noDidType (v : TFVal)
  | noDidValue (v : TFVal)
  | didTypeNotString (v : TFVal)
  | unknownIdlType (tag : String) (v : TFVal)
  | notAString (v : TFVal)
  | notARecord (v : TFVal)
  | cannotEncode (v : TFVal) (wrappedErr textErr recordErr : EncErr)
deriving Repr

/-- Go map indexing `m[k]` for the field map of an object value. -/
def lookupField : List (String × TFVal) → String → Option TFVal
  | [], _ => none
  | (k, v) :: rest, key => if k = key then some v else lookupField rest key

theorem lookupField_sizeOf_lt {l : List (String × TFVal)} {k : String} {v : TFVal}
    (h : lookupField l k = some v) : sizeOf v < sizeOf l := by
  induction l with
  | nil => simp [lookupField] at h
  | cons hd tl ih =>
    rcases hd with ⟨k0, v0⟩
    unfold lookupField at h
    by_cases hk : k0 = k
    · simp [hk] at h
      subst h
      simp
      omega
    · simp [hk] at h
      have := ih h
      simp
      omega

/-- Embeds `readTextValue` from `arg.go`: `val.As(&str)` succeeds exactly on
string values. -/
def readTextValue : TFVal → Except EncErr String
  | .str s => Except.ok s
  | v => Except.error (.notAString v)

mutual

/-- Embeds `TFValToCandid` from `arg.go`: try the wrapped-value reading
first, then fall back to text, then to record; if all three fail, return the
error aggregating the three attempts. -/
def TFValToCandid (val : TFVal) : Except EncErr CandidVal :=
  match readWrappedValue val with
  | Except.ok res => Except.ok res
  | Except.error errWrapped =>
    match readTextValue val with
    | Except.ok res => Except.ok (.text res)
    | Except.error errText =>
      match readRecordValue val with
      | Except.ok res => Except.ok (.record res)
      | Except.error errRec => Except.error (.cannotEncode val errWrapped errText errRec)
termination_by (sizeOf val, 2)
decreasing_by
  all_goals simp_wf
  · apply Prod.Lex.right; omega
  · apply Prod.Lex.right; omega

/-- Embeds `readWrappedValue` from `arg.go`: requires an object carrying
both `__didType` and `__didValue`, reads the tag as a string and dispatches
on it; an unrecognized tag is an error naming the tag. -/
def readWrappedValue (val : TFVal) : Except EncErr CandidVal :=
  match val with
  | .obj fields =>
    match lookupField fields "__didType" with
    | none => Except.error (.noDidType (.obj fields))
    | some idlType =>
      match hv : lookupField fields "__didValue" with
      | none => Except.error (.noDidValue (.obj fields))
      | some idlValue =>
        match readTextValue idlType with
        | Except.error _ => Except.error (.didTypeNotString (.obj fields))
        | Except.ok ty =>
          if ty = "text" then
            (readTextValue idlValue).map CandidVal.text
          else if ty = "record" then
            (readRecordValue idlValue).map CandidVal.record
          else
            Except.error (.unknownIdlType ty (.obj fields))
  | v => Except.error (.notWrapped v)
termination_by (sizeOf val, 0)
decreasing_by
  simp_wf
  apply Prod.Lex.left
  have := lookupField_sizeOf_lt hv
  omega

/-- Embeds `readRecordValue` from `arg.go`: an object value whose entries
are all recursively converted; the first failing entry aborts. -/
def readRecordValue (val : TFVal) : Except EncErr (List (String × CandidVal)) :=
  match val with
  | .obj fields => readRecordFields fields
  | v => Except.error (.notARecord v)
termination_by (sizeOf val, 1)
decreasing_by
  simp_wf
  apply Prod.Lex.left
  omega

/-- The `for k, v := range m` loop body of `readRecordValue`. -/
def readRecordFields : List (String × TFVal) → Except EncErr (List (String × CandidVal))
  | [] => Except.ok []
  | (k, v) :: rest =>
    match TFValToCandid v with
    | Except.error e => Except.error e
    | Except.ok cv =>
      match readRecordFields rest with
      | Except.error e => Except.error e
      | Except.ok tail => Except.ok ((k, cv) :: tail)
termination_by l => (sizeOf l, 3)
decreasing_by
  · simp_wf; apply Prod.Lex.left; omega
  · simp_wf; apply Prod.Lex.left; omega

end

/-! ## Go error values

Go errors are modelled structurally: `fmt.Errorf("context: %w", err)`
becomes `GoErr.wrapped "context: " err`, plain `fmt.Errorf`/diagnostic
messages become `GoErr.msg`, encoder errors are injected with `GoErr.enc`,
and `errors.Join` becomes `GoErr.joined`. -/
inductive GoErr where
  | msg (s : String)
  | enc (e : EncErr)
  | wrapped (context : String) (inner : GoErr)
  | joined (errs : List GoErr)
deriving Repr

/-! ## Hex encoding (`encoding/hex`)

Bytes are modelled as `Nat` values below 256. -/

def hexDigitChar (n : Nat) : Char :=
  Char.ofNat (if n < 10 then 48 + n else 87 + n)

/-- Embeds `hex.EncodeToString` (lowercase digits). -/
def hexEncode (bs : List Nat) : String :=
  String.mk (bs.foldr (fun b acc => hexDigitChar (b / 16) :: hexDigitChar (b % 16) :: acc) [])

def hexCharVal (c : Char) : Option Nat :=
  if 48 ≤ c.toNat ∧ c.toNat ≤ 57 then some (c.toNat - 48)
  else if 97 ≤ c.toNat ∧ c.toNat ≤ 102 then some (c.toNat - 87)
  else if 65 ≤ c.toNat ∧ c.toNat ≤ 70 then some (c.toNat - 55)
  else none

def hexDecodeList : List Char → Except GoErr (List Nat)
  | [] => Except.ok []
  | [_] => Except.error (.msg "encoding/hex: odd length hex string")
  | c1 :: c2 :: rest =>
    match hexCharVal c1 with
    | none => Except.error (.msg "encoding/hex: invalid byte")
    | some h =>
      match hexCharVal c2 with
      | none => Except.error (.msg "encoding/hex: invalid byte")
      | some l =>
        match hexDecodeList rest with
        | Except.error e => Except.error e
        | Except.ok bs => Except.ok ((16 * h + l) :: bs)

/-- Embeds `hex.DecodeString`. -/
def hexDecode (s : String) : Except GoErr (List Nat) :=
  hexDecodeList s.data

/-! ## Terraform attribute values (`types.String`, `types.List`, `types.Dynamic`)

Each framework value is null, unknown, or a known value.  `valueString`
mirrors `types.String.ValueString`, which returns the empty string for null
or unknown values. -/

inductive TFString where
  | null
  | unknown
  | value (s : String)
deriving Repr, DecidableEq

def TFString.isNull : TFString → Bool
  | .null => true
  | _ => false

def TFString.isUnknown : TFString → Bool
  | .unknown => true
  | _ => false

def TFString.valueString : TFString → String
  | .value s => s
  | _ => ""

/-- The `controllers` list attribute.  Its element type is fixed to string
by the schema, so known elements are modelled directly as strings (the
per-element type-assertion failures in `StringControllers` are unreachable
under the schema). -/
inductive TFList where
  | null
  | unknown
  | value (elems : List String)
deriving Repr, DecidableEq

def TFList.isNull : TFList → Bool
  | .null => true
  | _ => false

def TFList.isUnknown : TFList → Bool
  | .unknown => true
  | _ => false

/-- The dynamic `arg` attribute: null or a known Terraform value.  Unknown
dynamic values do not reach the reconciler's encode path and are not
modelled. -/
inductive TFDynamic where
  | null
  | value (v : TFVal)
deriving Repr

/-- Embeds `CanisterResourceModel` from `canister_resource.go`. -/
structure CanisterResourceModel where
  id : TFString
  controllers : TFList
  arg : TFDynamic
  argHex : TFString
  wasmFile : TFString
  wasmSha256 : TFString
deriving Repr

/-! ## Install modes (`icMgmt.CanisterInstallMode`) -/

inductive WasmMemoryPersistence where
  | keep
  | replace
deriving Repr, DecidableEq

/-- The anonymous upgrade-options struct built in `CanisterInstallModeUpgrade`. -/
structure UpgradeArgs where
  skipPreUpgrade : Option Bool
  wasmMemoryPersistence : Option WasmMemoryPersistence
deriving Repr, DecidableEq

/-- Go's `icMgmt.CanisterInstallMode` variant struct: exactly one of the
pointer fields is set.  The `upgrade` payload is a double pointer in Go
(`**struct{...}`), modelled as a nested `Option`. -/
structure CanisterInstallMode where
  install : Option Unit := none
  reinstall : Option Unit := none
  upgrade : Option (Option UpgradeArgs) := none
deriving Repr, DecidableEq

/-- Embeds `CanisterInstallModeInstall` from `canister_resource.go`. -/
def CanisterInstallModeInstall : CanisterInstallMode :=
  { install := some () }

/-- Embeds `CanisterInstallModeUpgrade` from `canister_resource.go`: note
that the source sets `skipPreUpgrade := false` and passes a pointer to it. -/
def CanisterInstallModeUpgrade : CanisterInstallMode :=
  { upgrade := some (some { skipPreUpgrade := some false, wasmMemoryPersistence := none }) }

/-- Per the IC management-canister interface, an `upgrade` install skips the
pre-upgrade hook exactly when the option `skip_pre_upgrade` is set to
`opt true`; `false` or absent means the hook runs. -/
def skipsPreUpgradeHook (m : CanisterInstallMode) : Bool :=
  match m.upgrade with
  | some (some u) => u.skipPreUpgrade = some true
  | _ => false

/-! ## Remote calls, oracle environment and the trace monad

Every remote management/ledger call issued by the reconciler is recorded as
an `RCall`.  Purely local operations (principal decoding, agent
construction, file reads, hashing, candid marshalling) do not appear in the
trace but their outcomes are still supplied by the environment. -/

inductive RCall where
  | createCanister
  | getModuleHash (canisterId : String)
  | getControllers (canisterId : String)
  | installCode (canisterId : String) (mode : CanisterInstallMode) (wasm : List Nat) (arg : List Nat)
  | uninstallCode (canisterId : String)
  | updateSettings (canisterId : String) (controllers : List String)
  | stopCanister (canisterId : String)
  | deleteCanister (canisterId : String)
deriving Repr, DecidableEq

def RCall.isInstallCode : RCall → Bool
  | .installCode _ _ _ _ => true
  | _ => false

def RCall.isUninstallCode : RCall → Bool
  | .uninstallCode _ => true
  | _ => false

def RCall.isUpdateSettings : RCall → Bool
  | .updateSettings _ _ => true
  | _ => false

/-- A code-facet reconciliation call: install or uninstall. -/
def RCall.isCodeFacet (c : RCall) : Bool :=
  c.isInstallCode || c.isUninstallCode

/-- Oracle environment standing for the external collaborators: the agent
library (principal decoding, agent construction, remote calls), the file
system, SHA-256, and the candid serializer.  Principals are modelled by
their textual encoding, so `decodePrincipal` returns the canonical encoded
form on success.  `marshal v` stands for `idl.Marshal([]any{v})`, the
serialization of the single-element argument list holding `v`. -/
structure Env where
  providerPrincipal : String
  createCanister : Except GoErr String
  newAgent : Except GoErr Unit
  decodePrincipal : String → Except GoErr String
  readFile : String → Except GoErr (List Nat)
  sha256hex : List Nat → String
  getModuleHash : String → Except GoErr (List Nat)
  getControllers : String → Except GoErr (List String)
  installCode : String → CanisterInstallMode → List Nat → List Nat → Except GoErr Unit
  uninstallCode : String → Except GoErr Unit
  updateSettings : String → List String → Except GoErr Unit
  stopCanister : String → Except GoErr Unit
  deleteCanister : String → Except GoErr Unit
  marshal : CandidVal → Except GoErr (List Nat)

/-- State-passing computation of the reconciler: threads the trace of
remote calls issued so far and may fail with a Go error (which in the
lifecycle methods becomes an error diagnostic).  The trace is kept even
when the computation fails. -/
def ES (α : Type) : Type :=
  List RCall → List RCall × Except GoErr α

def ES.pure {α : Type} (a : α) : ES α :=
  fun t => (t, Except.ok a)

def ES.bind {α β : Type} (x : ES α) (f : α → ES β) : ES β :=
  fun t =>
    match x t with
    | (t1, Except.ok a) => f a t1
    | (t1, Except.error e) => (t1, Except.error e)

instance : Monad ES where
  pure := ES.pure
  bind := ES.bind

theorem ES.bind_eq {α β : Type} (x : ES α) (f : α → ES β) : x >>= f = ES.bind x f := rfl

theorem ES.pure_eq {α : Type} (a : α) : (pure a : ES α) = ES.pure a := rfl

/-- Lift a local (traceless) fallible operation. -/
def liftE {α : Type} (x : Except GoErr α) : ES α :=
  fun t => (t, x)

/-- An early `return err` / `AddError` exit. -/
def esFail {α : Type} (e : GoErr) : ES α :=
  fun t => (t, Except.error e)

/-- Issue the remote call `c` (recording it in the trace) with outcome `res`. -/
def callR {α : Type} (c : RCall) (res : Except GoErr α) : ES α :=
  fun t => (t ++ [c], res)

/-- Error wrapping at the Except level (`fmt.Errorf("p%w", err)`). -/
def wrapErrE {α : Type} (p : String) : Except GoErr α → Except GoErr α
  | Except.ok a => Except.ok a
  | Except.error e => Except.error (.wrapped p e)

/-- Wrap the error of a computation with context `p`. -/
def wrap {α : Type} (p : String) (x : ES α) : ES α :=
  fun t => ((x t).1, wrapErrE p (x t).2)

/-! ## Embedded reconciler helpers (`canister_resource.go`) -/

/-- Embeds `StringControllers`: null or unknown controllers yield the `nil`
slice (modelled as `none`); otherwise the elements are returned.  The
element conversion loop cannot fail because the schema fixes the element
type to string. -/
def StringControllers (data : CanisterResourceModel) : Except GoErr (Option (List String)) :=
  match data.controllers with
  | .null => Except.ok none
  | .unknown => Except.ok none
  | .value elems => Except.ok (some elems)

/-- Embeds `InferDefaultControllers`: if the controllers are null or
unknown, set them to the single provider principal (the Go method performs
the two checks sequentially and always returns a nil error). -/
def InferDefaultControllers (data : CanisterResourceModel) (config : Env) : CanisterResourceModel :=
  let providerController := config.providerPrincipal
  let data1 :=
    if data.controllers.isNull then
      { data with controllers := .value [providerController] }
    else data
  if data1.controllers.isUnknown then
    { data1 with controllers := .value [providerController] }
  else data1

/-- Embeds `GetArgHex`: pre-encoded `arg_hex` wins; a null `arg` is the
empty hex string (the empty byte buffer); otherwise the dynamic value is
converted by `TFValToCandid`, marshalled as a single-element argument list
and hex encoded. -/
def GetArgHex (env : Env) (data : CanisterResourceModel) : Except GoErr String :=
  if data.argHex.isNull = false then
    Except.ok data.argHex.valueString
  else
    match data.arg with
    | .null => Except.ok ""
    | .value tfVal =>
      match TFValToCandid tfVal with
      | Except.error e => Except.error (.enc e)
      | Except.ok didValue =>
        match env.marshal didValue with
        | Except.error e => Except.error e
        | Except.ok didEncoded => Except.ok (hexEncode didEncoded)

/-- Embeds `InferInstallMode`: read the current module hash; an empty hash
selects `Install`, a non-empty hash selects `Upgrade`. -/
def InferInstallMode (env : Env) (canisterIdS : String) : ES CanisterInstallMode := do
  let canisterId ← wrap "Could not decode canister principal: " (liftE (env.decodePrincipal canisterIdS))
  let _ ← wrap "could not create agent: " (liftE env.newAgent)
  let moduleHash ← wrap "could not get canister module hash: " (callR (.getModuleHash canisterId) (env.getModuleHash canisterId))
  if moduleHash.length = 0 then
    pure CanisterInstallModeInstall
  else
    pure CanisterInstallModeUpgrade

/-- Embeds `setCanisterCode`: infer the install mode, read the module file,
check the supplied checksum (when non-empty) against the file's SHA-256
digest before issuing `InstallCode`, then install. -/
def setCanisterCode (env : Env) (canisterId argHex wasmFile wasmSha256 : String) : ES Unit := do
  let installMode ← wrap "Could not infer install mode: " (InferInstallMode env canisterId)
  let _ ← wrap "Could not create agent: " (liftE env.newAgent)
  let canisterIdP ← wrap "Could not decode principal: " (liftE (env.decodePrincipal canisterId))
  let wasmModule ← wrap "Could not read wasm module: " (liftE (env.readFile wasmFile))
  let _ ← (if 0 < wasmSha256.length then
      (let computedStr := env.sha256hex wasmModule
       if wasmSha256 ≠ computedStr then
         esFail (.msg ("Sha256 mismatch, expected " ++ wasmSha256 ++ ", got " ++ computedStr))
       else ES.pure ())
    else ES.pure ())
  let argRaw ← liftE (hexDecode argHex)
  wrap "Could not install code: "
    (callR (.installCode canisterIdP installMode wasmModule argRaw)
      (env.installCode canisterIdP installMode wasmModule argRaw))

/-- Embeds `setCanisterEmpty`: uninstall the canister's code. -/
def setCanisterEmpty (env : Env) (canisterId : String) : ES Unit := do
  let _ ← wrap "Uninstalling canister: Could not create agent: " (liftE env.newAgent)
  let canisterIdP ← wrap "Uninstalling canister: Could not decode principal: " (liftE (env.decodePrincipal canisterId))
  wrap "Uninstalling canister: Could not uninstall code: "
    (callR (.uninstallCode canisterIdP) (env.uninstallCode canisterIdP))

/-- The controller-decoding loop of `setCanisterControllers`. -/
def decodePrincipals (env : Env) : List String → Except GoErr (List String)
  | [] => Except.ok []
  | c :: rest =>
    match env.decodePrincipal c with
    | Except.error e => Except.error e
    | Except.ok p =>
      match decodePrincipals env rest with
      | Except.error e => Except.error e
      | Except.ok ps => Except.ok (p :: ps)

/-- Embeds `setCanisterControllers`: decode the canister id and every
controller principal, then push the settings update (errors are returned
unwrapped, as in the source). -/
def setCanisterControllers (env : Env) (canisterId : String) (controllers : List String) : ES Unit := do
  let _ ← liftE env.newAgent
  let canisterIdP ← liftE (env.decodePrincipal canisterId)
  let controllersP ← liftE (decodePrincipals env controllers)
  callR (.updateSettings canisterIdP controllersP) (env.updateSettings canisterIdP controllersP)

/-- Embeds the `CanisterInfo` struct. -/
structure CanisterInfo where
  controllers : List String
  wasmSha256 : String
deriving Repr, DecidableEq

/-- Embeds `ReadCanisterInfo`: read the module hash (hex encoded) and the
controller list. -/
def ReadCanisterInfo (env : Env) (canisterId : String) : ES CanisterInfo := do
  let _ ← wrap "could not create agent: " (liftE env.newAgent)
  let moduleHash ← wrap "could not get canister module hash: " (callR (.getModuleHash canisterId) (env.getModuleHash canisterId))
  let moduleHashString := hexEncode moduleHash
  let controllers ← wrap "could not get canister controllers: " (callR (.getControllers canisterId) (env.getControllers canisterId))
  ES.pure { controllers := controllers, wasmSha256 := moduleHashString }

/-! ## Lifecycle operations

Each lifecycle method returns `Except.ok` with the model written to the
Terraform state on success; an `Except.error` models an error diagnostic
added to the response, in which case the method returned before calling
`resp.State.Set` and the persisted state is unchanged.  Warnings (the
post-install checksum mismatch warning of `Create` and the `ModifyPlan`
self-removal warning) are non-fatal and not modelled.  Canister creation
itself (provisional vs cycles-minting-canister, selected by endpoint) is a
collaborator boundary and modelled as the single oracle outcome
`Env.createCanister`. -/

/-- Embeds `Create` from `canister_resource.go`. -/
def Create (env : Env) (plan : CanisterResourceModel) : ES CanisterResourceModel := do
  let canisterId ← callR .createCanister env.createCanister
  let data1 := { plan with id := TFString.value canisterId }
  let argHex ← wrap "Could not read argument: " (liftE (GetArgHex env data1))
  let doInstallCode := data1.wasmFile.isNull = false
  let wasmSha256 := data1.wasmSha256.valueString
  let _ ← (if doInstallCode then
      wrap "Could not update code: "
        (setCanisterCode env canisterId argHex data1.wasmFile.valueString wasmSha256)
    else ES.pure ())
  let canisterInfo ← wrap "Could not read canister info: " (ReadCanisterInfo env canisterId)
  let data2 :=
    if wasmSha256.length = 0 then
      { data1 with wasmSha256 := TFString.value canisterInfo.wasmSha256 }
    else data1
  let data3 := InferDefaultControllers data2 env
  let controllersOpt ← wrap "Could not update controllers: " (liftE (StringControllers data3))
  match controllersOpt with
  | none => esFail (.msg "Controllers not set")
  | some controllers => do
    let _ ← wrap "Could not update controllers: " (setCanisterControllers env canisterId controllers)
    ES.pure data3

/-- Embeds `Update` from `canister_resource.go`: controllers are pushed
first; then the code facet is reconciled (uninstall when `wasm_file` is
null, install otherwise). -/
def Update (env : Env) (plan : CanisterResourceModel) : ES CanisterResourceModel := do
  let canisterId := plan.id.valueString
  let controllersOpt ← wrap "Could not update controllers: " (liftE (StringControllers plan))
  match controllersOpt with
  | none => esFail (.msg "Controllers not set")
  | some controllers => do
    let _ ← wrap "Could not update controllers: " (setCanisterControllers env canisterId controllers)
    if plan.wasmFile.isNull then do
      let _ ← wrap "Could not uninstall code: " (setCanisterEmpty env canisterId)
      ES.pure { plan with wasmSha256 := TFString.value "" }
    else do
      let argHex ← wrap "Could not read argument: " (liftE (GetArgHex env plan))
      let wasmFile := plan.wasmFile.valueString
      let wasmSha256 := plan.wasmSha256.valueString
      let _ ← wrap "Could not update code: " (setCanisterCode env canisterId argHex wasmFile wasmSha256)
      ES.pure plan

/-- Result of `ImportState`: which attributes were written into the
response state, the error diagnostics added, and the `tflog.Error`
messages (log output only, invisible in the Terraform UI). -/
structure ImportResult where
  idSet : Option String
  wasmSha256Set : Option String
  controllersSet : Option (List String)
  errors : List GoErr
  logs : List String
deriving Repr

/-- Embeds `ImportState` from `canister_resource.go`: the id attribute is
set first; a principal-decode failure is only logged via `tflog.Error`
before returning; a `ReadCanisterInfo` failure is added as an error
diagnostic; on success the module hash and controllers are adopted. -/
def ImportState (env : Env) (reqID : String) : List RCall → List RCall × ImportResult :=
  fun t0 =>
    let res0 : ImportResult :=
      { idSet := some reqID, wasmSha256Set := none, controllersSet := none,
        errors := [], logs := [] }
    match env.decodePrincipal reqID with
    | Except.error _ => (t0, { res0 with logs := ["Cannot decode principal"] })
    | Except.ok canisterId =>
      match ReadCanisterInfo env canisterId t0 with
      | (t1, Except.error e) =>
        (t1, { res0 with errors := [GoErr.wrapped "Cannot read canister info: " e] })
      | (t1, Except.ok canisterInfo) =>
        (t1, { res0 with wasmSha256Set := some canisterInfo.wasmSha256,
                         controllersSet := some canisterInfo.controllers })

/-! ## Identity loading (`identity.go`)

The three PEM parsers of the agent library are external collaborators and
appear as parameters, listed in the order the source tries them:
Ed25519, then secp256k1, then prime256v1. -/

/-- Embeds `NewIdentityFromPEM`: try the three schemes in order, return the
first successful parse, and if none parses return the `errors.Join` of the
three failures. -/
def NewIdentityFromPEM {Identity : Type}
    (newEd25519IdentityFromPEM : List Nat → Except GoErr Identity)
    (newSecp256k1IdentityFromPEM : List Nat → Except GoErr Identity)
    (newPrime256v1IdentityFromPEM : List Nat → Except GoErr Identity)
    (data : List Nat) : Except GoErr Identity :=
  match newEd25519IdentityFromPEM data with
  | Except.ok ed25519Identity => Except.ok ed25519Identity
  | Except.error e1 =>
    match newSecp256k1IdentityFromPEM data with
    | Except.ok secp256k1Identity => Except.ok secp256k1Identity
    | Except.error e2 =>
      match newPrime256v1IdentityFromPEM data with
      | Except.ok prime256v1Identity => Except.ok prime256v1Identity
      | Except.error e3 => Except.error (.joined [e1, e2, e3])

/-! ## Candid argument-list constants

These two byte strings follow the candid binary format specification: an
argument sequence is the magic bytes `DIDL` followed by a LEB128 type
table and the argument types and values.  They are reference constants for
comparison with the code's behaviour, not part of the repository. -/

/-- The canonical candid encoding of the empty argument list `()`: magic
`DIDL`, zero type-table entries, zero argument values. -/
def didlEmptyArgs : List Nat := [68, 73, 68, 76, 0, 0]

/-- The canonical candid encoding of the single-`null` argument list
`(null)`: magic `DIDL`, zero type-table entries, one argument of primitive
type `null` (opcode `0x7f`). -/
def didlNullArg : List Nat := [68, 73, 68, 76, 0, 1, 127]

/-! ## Trace reasoning infrastructure -/

/-- `EmitsOnly x P`: the computation only appends remote calls satisfying
`P` to the trace, whatever the oracles answer. -/
def EmitsOnly {α : Type} (x : ES α) (P : RCall → Prop) : Prop :=
  ∀ t0, ∃ d, (x t0).1 = t0 ++ d ∧ ∀ c ∈ d, P c

theorem wrap_fst {α : Type} (p : String) (x : ES α) (t0 : List RCall) :
    (wrap p x t0).1 = (x t0).1 := rfl

theorem emitsOnly_pure {α : Type} (a : α) (P : RCall → Prop) : EmitsOnly (ES.pure a) P :=
  fun t0 => ⟨[], by simp [ES.pure], by simp⟩

theorem emitsOnly_liftE {α : Type} (x : Except GoErr α) (P : RCall → Prop) :
    EmitsOnly (liftE x) P :=
  fun t0 => ⟨[], by simp [liftE], by simp⟩

theorem emitsOnly_esFail {α : Type} (e : GoErr) (P : RCall → Prop) :
    EmitsOnly (esFail e : ES α) P :=
  fun t0 => ⟨[], by simp [esFail], by simp⟩

theorem emitsOnly_callR {α : Type} {c : RCall} {res : Except GoErr α} {P : RCall → Prop}
    (h : P c) : EmitsOnly (callR c res) P :=
  fun t0 => ⟨[c], rfl, by simpa⟩

theorem emitsOnly_wrap {α : Type} {p : String} {x : ES α} {P : RCall → Prop}
    (hx : EmitsOnly x P) : EmitsOnly (wrap p x) P := by
  intro t0
  obtain ⟨d, h, hp⟩ := hx t0
  exact ⟨d, by rw [wrap_fst]; exact h, hp⟩

theorem emitsOnly_mono {α : Type} {x : ES α} {P Q : RCall → Prop}
    (hx : EmitsOnly x P) (hpq : ∀ c, P c → Q c) : EmitsOnly x Q := by
  intro t0
  obtain ⟨d, h, hp⟩ := hx t0
  exact ⟨d, h, fun c hc => hpq c (hp c hc)⟩

theorem emitsOnly_bind {α β : Type} {x : ES α} {f : α → ES β} {P : RCall → Prop}
    (hx : EmitsOnly x P)
    (hf : ∀ a t0 t1, x t0 = (t1, Except.ok a) → EmitsOnly (f a) P) :
    EmitsOnly (ES.bind x f) P := by
  intro t0
  obtain ⟨d1, h1, hp1⟩ := hx t0
  rcases hx0 : x t0 with ⟨t1, r⟩
  rw [hx0] at h1
  simp only at h1
  show ∃ d, (ES.bind x f t0).1 = t0 ++ d ∧ ∀ c ∈ d, P c
  unfold ES.bind
  rw [hx0]
  cases r with
  | error e => exact ⟨d1, by simpa using h1, hp1⟩
  | ok a =>
    obtain ⟨d2, h2, hp2⟩ := (hf a t0 t1 hx0) t1
    refine ⟨d1 ++ d2, ?_, ?_⟩
    · simp only
      rw [h2, h1, List.append_assoc]
    · intro c hc
      rcases List.mem_append.mp hc with h | h
      exacts [hp1 c h, hp2 c h]

theorem emitsOnly_ite {α : Type} {c : Prop} [Decidable c] {x y : ES α} {P : RCall → Prop}
    (hx : EmitsOnly x P) (hy : EmitsOnly y P) : EmitsOnly (if c then x else y) P := by
  split
  · exact hx
  · exact hy

/-- Inversion of a successful bind: both halves ran and succeeded. -/
theorem ES.bind_ok {α β : Type} {x : ES α} {f : α → ES β} {t0 t : List RCall} {b : β}
    (h : ES.bind x f t0 = (t, Except.ok b)) :
    ∃ t1 a, x t0 = (t1, Except.ok a) ∧ f a t1 = (t, Except.ok b) := by
  unfold ES.bind at h
  rcases hx : x t0 with ⟨t1, r⟩
  rw [hx] at h
  cases r with
  | ok a => exact ⟨t1, a, rfl, h⟩
  | error e => simp at h

theorem wrap_ok {α : Type} {p : String} {x : ES α} {t0 t : List RCall} {a : α}
    (h : wrap p x t0 = (t, Except.ok a)) : x t0 = (t, Except.ok a) := by
  unfold wrap at h
  rcases hx : x t0 with ⟨t1, r⟩
  rw [hx] at h
  cases r with
  | ok a0 => simpa [wrapErrE] using h
  | error e => simp [wrapErrE] at h

theorem liftE_ok {α : Type} {x : Except GoErr α} {t0 t : List RCall} {a : α}
    (h : liftE x t0 = (t, Except.ok a)) : t = t0 ∧ x = Except.ok a := by
  unfold liftE at h
  exact ⟨(Prod.mk.injEq .. ▸ h).1.symm, (Prod.mk.injEq .. ▸ h).2⟩

theorem callR_ok {α : Type} {c : RCall} {res : Except GoErr α} {t0 t : List RCall} {a : α}
    (h : callR c res t0 = (t, Except.ok a)) : t = t0 ++ [c] ∧ res = Except.ok a := by
  unfold callR at h
  exact ⟨(Prod.mk.injEq .. ▸ h).1.symm, (Prod.mk.injEq .. ▸ h).2⟩

theorem ES.pure_ok {α : Type} {a b : α} {t0 t : List RCall}
    (h : ES.pure a t0 = (t, Except.ok b)) : t = t0 ∧ b = a := by
  unfold ES.pure at h
  refine ⟨(Prod.mk.injEq .. ▸ h).1.symm, ?_⟩
  have := (Prod.mk.injEq .. ▸ h).2
  exact (Except.ok.injEq .. ▸ this).symm

/-- `before A B t`: in trace `t`, every call satisfying `A` was issued
strictly before every call satisfying `B`. -/
def before (A B : RCall → Prop) (t : List RCall) : Prop :=
  ∀ i j (hi : i < t.length) (hj : j < t.length),
    A (t.get ⟨i, hi⟩) → B (t.get ⟨j, hj⟩) → i < j

theorem before_of_split {A B : RCall → Prop} {t1 t2 : List RCall}
    (h1 : ∀ c ∈ t1, ¬ B c) (h2 : ∀ c ∈ t2, ¬ A c) : before A B (t1 ++ t2) := by
  intro i j hi hj hA hB
  have hi1 : i < t1.length := by
    by_contra hcon
    push_neg at hcon
    have hj2 : i - t1.length < t2.length := by
      have := List.length_append t1 t2 ▸ hi
      omega
    have : (t1 ++ t2).get ⟨i, hi⟩ = t2.get ⟨i - t1.length, hj2⟩ := by
      rw [List.get_append_right] <;> omega
    exact h2 _ (this ▸ List.get_mem t2 _ _) hA
  have hj1 : t1.length ≤ j := by
    by_contra hcon
    push_neg at hcon
    have : (t1 ++ t2).get ⟨j, hj⟩ = t1.get ⟨j, hcon⟩ := List.get_append j hcon
    exact h1 _ (this ▸ List.get_mem t1 _ _) hB
  omega

/-- `SplitEmits x A B`: the calls appended by `x` split into a first phase
free of `B`-calls followed by a second phase free of `A`-calls. -/
def SplitEmits {α : Type} (x : ES α) (A B : RCall → Prop) : Prop :=
  ∀ t0, ∃ d1 d2, (x t0).1 = t0 ++ d1 ++ d2 ∧ (∀ c ∈ d1, ¬ B c) ∧ (∀ c ∈ d2, ¬ A c)

theorem splitEmits_of_notB {α : Type} {x : ES α} {A B : RCall → Prop}
    (hx : EmitsOnly x (fun c => ¬ B c)) : SplitEmits x A B := by
  intro t0
  obtain ⟨d, h, hp⟩ := hx t0
  exact ⟨d, [], by simpa using h, hp, by simp⟩

theorem splitEmits_of_notA {α : Type} {x : ES α} {A B : RCall → Prop}
    (hx : EmitsOnly x (fun c => ¬ A c)) : SplitEmits x A B := by
  intro t0
  obtain ⟨d, h, hp⟩ := hx t0
  exact ⟨[], d, by simpa using h, by simp, hp⟩

/-- Sequencing a `B`-free computation before a splitting computation keeps
the split. -/
theorem splitEmits_bind {α β : Type} {x : ES α} {f : α → ES β} {A B : RCall → Prop}
    (hx : EmitsOnly x (fun c => ¬ B c))
    (hf : ∀ a t0 t1, x t0 = (t1, Except.ok a) → SplitEmits (f a) A B) :
    SplitEmits (ES.bind x f) A B := by
  intro t0
  obtain ⟨d1, h1, hp1⟩ := hx t0
  rcases hx0 : x t0 with ⟨t1, r⟩
  rw [hx0] at h1
  simp only at h1
  show ∃ d1 d2, (ES.bind x f t0).1 = t0 ++ d1 ++ d2 ∧ _
  unfold ES.bind
  rw [hx0]
  cases r with
  | error e => exact ⟨d1, [], by simpa using h1, hp1, by simp⟩
  | ok a =>
    obtain ⟨e1, e2, h2, hq1, hq2⟩ := (hf a t0 t1 hx0) t1
    refine ⟨d1 ++ e1, e2, ?_, ?_, hq2⟩
    · simp only
      rw [h2, h1]
      simp [List.append_assoc]
    · intro c hc
      rcases List.mem_append.mp hc with h | h
      exacts [hp1 c h, hq1 c h]

/-- Sequencing a splitting computation before an `A`-free computation keeps
the split. -/
theorem splitEmits_bind_after {α β : Type} {x : ES α} {f : α → ES β} {A B : RCall → Prop}
    (hx : SplitEmits x A B)
    (hf : ∀ a t0 t1, x t0 = (t1, Except.ok a) → EmitsOnly (f a) (fun c => ¬ A c)) :
    SplitEmits (ES.bind x f) A B := by
  intro t0
  obtain ⟨d1, d2, h1, hp1, hp2⟩ := hx t0
  rcases hx0 : x t0 with ⟨t1, r⟩
  rw [hx0] at h1
  simp only at h1
  show ∃ d1 d2, (ES.bind x f t0).1 = t0 ++ d1 ++ d2 ∧ _
  unfold ES.bind
  rw [hx0]
  cases r with
  | error e => exact ⟨d1, d2, by simpa using h1, hp1, hp2⟩
  | ok a =>
    obtain ⟨e2, h2, hq2⟩ := (hf a t0 t1 hx0) t1
    refine ⟨d1, d2 ++ e2, ?_, hp1, ?_⟩
    · simp only
      rw [h2, h1]
      simp [List.append_assoc]
    · intro c hc
      rcases List.mem_append.mp hc with h | h
      exacts [hp2 c h, hq2 c h]

theorem splitEmits_ite {α : Type} {c : Prop} [Decidable c] {x y : ES α} {A B : RCall → Prop}
    (hx : SplitEmits x A B) (hy : SplitEmits y A B) : SplitEmits (if c then x else y) A B := by
  split
  · exact hx
  · exact hy

/-! ## Calls emitted by each reconciler helper -/

theorem emitsOnly_InferInstallMode (env : Env) (cid : String) :
    EmitsOnly (InferInstallMode env cid) (fun c => ∃ p, c = RCall.getModuleHash p) := by
  unfold InferInstallMode
  simp only [ES.bind_eq, ES.pure_eq]
  apply emitsOnly_bind (emitsOnly_wrap (emitsOnly_liftE _ _))
  intro cidP _ _ _
  apply emitsOnly_bind (emitsOnly_wrap (emitsOnly_liftE _ _))
  intro _ _ _ _
  apply emitsOnly_bind (emitsOnly_wrap (emitsOnly_callR ⟨cidP, rfl⟩))
  intro h _ _ _
  exact emitsOnly_ite (emitsOnly_pure _ _) (emitsOnly_pure _ _)

/-- Every call emitted by `setCanisterCode` is either the module-hash read
of `InferInstallMode` or the final `InstallCode`, and any emitted
`InstallCode` carries wasm bytes that passed the checksum check: the
supplied checksum was empty or equals the SHA-256 digest of those bytes. -/
theorem emitsOnly_setCanisterCode (env : Env) (cid argHex wasmFile s : String) :
    EmitsOnly (setCanisterCode env cid argHex wasmFile s)
      (fun c => (∃ p, c = RCall.getModuleHash p) ∨
        ∃ p m w a, c = RCall.installCode p m w a ∧ (s.length = 0 ∨ s = env.sha256hex w)) := by
  unfold setCanisterCode
  simp only [ES.bind_eq, ES.pure_eq]
  apply emitsOnly_bind
    (emitsOnly_wrap (emitsOnly_mono (emitsOnly_InferInstallMode env cid) (fun c hc => Or.inl hc)))
  intro installMode _ _ _
  apply emitsOnly_bind (emitsOnly_wrap (emitsOnly_liftE _ _))
  intro _ _ _ _
  apply emitsOnly_bind (emitsOnly_wrap (emitsOnly_liftE _ _))
  intro cidP _ _ _
  apply emitsOnly_bind (emitsOnly_wrap (emitsOnly_liftE _ _))
  intro wasmModule _ _ _
  apply emitsOnly_bind
  · apply emitsOnly_ite
    · apply emitsOnly_ite (emitsOnly_esFail _ _) (emitsOnly_pure _ _)
    · exact emitsOnly_pure _ _
  intro _ tg0 tg1 hguard
  apply emitsOnly_bind (emitsOnly_liftE _ _)
  intro argRaw _ _ _
  apply emitsOnly_wrap
  apply emitsOnly_callR
  refine Or.inr ⟨cidP, installMode, wasmModule, argRaw, rfl, ?_⟩
  by_cases h : 0 < s.length
  · rw [if_pos h] at hguard
    by_cases h2 : s = env.sha256hex wasmModule
    · exact Or.inr h2
    · rw [if_pos h2] at hguard
      simp [esFail] at hguard
  · left; omega

theorem emitsOnly_setCanisterEmpty (env : Env) (cid : String) :
    EmitsOnly (setCanisterEmpty env cid) (fun c => ∃ p, c = RCall.uninstallCode p) := by
  unfold setCanisterEmpty
  simp only [ES.bind_eq, ES.pure_eq]
  apply emitsOnly_bind (emitsOnly_wrap (emitsOnly_liftE _ _))
  intro _ _ _ _
  apply emitsOnly_bind (emitsOnly_wrap (emitsOnly_liftE _ _))
  intro cidP _ _ _
  exact emitsOnly_wrap (emitsOnly_callR ⟨cidP, rfl⟩)

theorem emitsOnly_setCanisterControllers (env : Env) (cid : String) (cs : List String) :
    EmitsOnly (setCanisterControllers env cid cs) (fun c => ∃ p l, c = RCall.updateSettings p l) := by
  unfold setCanisterControllers
  simp only [ES.bind_eq, ES.pure_eq]
  apply emitsOnly_bind (emitsOnly_liftE _ _)
  intro _ _ _ _
  apply emitsOnly_bind (emitsOnly_liftE _ _)
  intro cidP _ _ _
  apply emitsOnly_bind (emitsOnly_liftE _ _)
  intro csP _ _ _
  exact emitsOnly_callR ⟨cidP, csP, rfl⟩

theorem emitsOnly_ReadCanisterInfo (env : Env) (cid : String) :
    EmitsOnly (ReadCanisterInfo env cid)
      (fun c => (∃ p, c = RCall.getModuleHash p) ∨ ∃ p, c = RCall.getControllers p) := by
  unfold ReadCanisterInfo
  simp only [ES.bind_eq, ES.pure_eq]
  apply emitsOnly_bind (emitsOnly_wrap (emitsOnly_liftE _ _))
  intro _ _ _ _
  apply emitsOnly_bind (emitsOnly_wrap (emitsOnly_callR (Or.inl ⟨cid, rfl⟩)))
  intro _ _ _ _
  apply emitsOnly_bind (emitsOnly_wrap (emitsOnly_callR (Or.inr ⟨cid, rfl⟩)))
  intro _ _ _ _
  exact emitsOnly_pure _ _

/-! ## Successful-run inversion lemmas -/

theorem setCanisterControllers_ok {env : Env} {cid : String} {cs : List String}
    {t0 t1 : List RCall} {u : Unit}
    (h : setCanisterControllers env cid cs t0 = (t1, Except.ok u)) :
    ∃ cidP csP, env.decodePrincipal cid = Except.ok cidP ∧
      decodePrincipals env cs = Except.ok csP ∧
      t1 = t0 ++ [RCall.updateSettings cidP csP] := by
  unfold setCanisterControllers at h
  simp only [ES.bind_eq, ES.pure_eq] at h
  obtain ⟨ta, _, ha, h⟩ := ES.bind_ok h
  obtain ⟨hta, _⟩ := liftE_ok ha
  obtain ⟨tb, cidP, hb, h⟩ := ES.bind_ok h
  obtain ⟨htb, hcid⟩ := liftE_ok hb
  obtain ⟨tc, csP, hc, h⟩ := ES.bind_ok h
  obtain ⟨htc, hcs⟩ := liftE_ok hc
  obtain ⟨ht1, _⟩ := callR_ok h
  subst hta htb htc ht1
  exact ⟨cidP, csP, hcid, hcs, rfl⟩

theorem inferDefaultControllers_controllers (data : CanisterResourceModel) (env : Env) :
    (InferDefaultControllers data env).controllers =
      match data.controllers with
      | .null => TFList.value [env.providerPrincipal]
      | .unknown => TFList.value [env.providerPrincipal]
      | .value l => TFList.value l := by
  unfold InferDefaultControllers
  cases h : data.controllers <;> simp [h, TFList.isNull, TFList.isUnknown]

theorem inferDefaultControllers_isSet (data : CanisterResourceModel) (env : Env) :
    (InferDefaultControllers data env).controllers.isNull = false ∧
    (InferDefaultControllers data env).controllers.isUnknown = false := by
  rw [inferDefaultControllers_controllers]
  cases data.controllers <;> simp [TFList.isNull, TFList.isUnknown]

/-! ## Phase structure of `Create` and `Update` -/

/-- In `Create`, the calls split into a phase with no `UpdateSettings`
(creation, code install, read-back) followed by a phase with no
`InstallCode` (the final controller push). -/
theorem splitEmits_Create (env : Env) (data : CanisterResourceModel) :
    SplitEmits (Create env data)
      (fun c => c.isInstallCode = true) (fun c => c.isUpdateSettings = true) := by
  unfold Create
  simp only [ES.bind_eq, ES.pure_eq]
  apply splitEmits_bind (emitsOnly_callR (by simp [RCall.isUpdateSettings]))
  intro cid _ _ _
  apply splitEmits_bind (emitsOnly_wrap (emitsOnly_liftE _ _))
  intro argHex _ _ _
  apply splitEmits_bind
  · apply emitsOnly_ite
    · apply emitsOnly_wrap
      apply emitsOnly_mono (emitsOnly_setCanisterCode env cid argHex _ _)
      rintro c (⟨p, rfl⟩ | ⟨p, m, w, a, rfl, _⟩) <;> simp [RCall.isUpdateSettings]
    · exact emitsOnly_pure _ _
  intro _ _ _ _
  apply splitEmits_bind
  · apply emitsOnly_wrap
    apply emitsOnly_mono (emitsOnly_ReadCanisterInfo env cid)
    rintro c (⟨p, rfl⟩ | ⟨p, rfl⟩) <;> simp [RCall.isUpdateSettings]
  intro info _ _ _
  apply splitEmits_bind (emitsOnly_wrap (emitsOnly_liftE _ _))
  intro ctrlOpt _ _ _
  cases ctrlOpt with
  | none => exact splitEmits_of_notB (emitsOnly_esFail _ _)
  | some cs =>
    apply splitEmits_bind_after
    · apply splitEmits_of_notA
      apply emitsOnly_wrap
      apply emitsOnly_mono (emitsOnly_setCanisterControllers env cid cs)
      rintro c ⟨p, l, rfl⟩
      simp [RCall.isInstallCode]
    intro _ _ _ _
    exact emitsOnly_pure _ _

/-- In `Update`, the calls split into a phase with no code-facet call (the
controller push) followed by a phase with no `UpdateSettings` (the code
reconciliation). -/
theorem splitEmits_Update (env : Env) (data : CanisterResourceModel) :
    SplitEmits (Update env data)
      (fun c => c.isUpdateSettings = true) (fun c => c.isCodeFacet = true) := by
  unfold Update
  simp only [ES.bind_eq, ES.pure_eq]
  apply splitEmits_bind (emitsOnly_wrap (emitsOnly_liftE _ _))
  intro ctrlOpt _ _ _
  cases ctrlOpt with
  | none => exact splitEmits_of_notB (emitsOnly_esFail _ _)
  | some cs =>
    apply splitEmits_bind
    · apply emitsOnly_wrap
      apply emitsOnly_mono (emitsOnly_setCanisterControllers env _ cs)
      rintro c ⟨p, l, rfl⟩
      simp [RCall.isCodeFacet, RCall.isInstallCode, RCall.isUninstallCode]
    intro _ _ _ _
    apply splitEmits_of_notA
    apply emitsOnly_ite
    · apply emitsOnly_bind
      · apply emitsOnly_wrap
        apply emitsOnly_mono (emitsOnly_setCanisterEmpty env _)
        rintro c ⟨p, rfl⟩
        simp [RCall.isUpdateSettings]
      intro _ _ _ _
      exact emitsOnly_pure _ _
    · apply emitsOnly_bind (emitsOnly_wrap (emitsOnly_liftE _ _))
      intro argHex2 _ _ _
      apply emitsOnly_bind
      · apply emitsOnly_wrap
        apply emitsOnly_mono (emitsOnly_setCanisterCode env _ argHex2 _ _)
        rintro c (⟨p, rfl⟩ | ⟨p, m, w, a, rfl, _⟩) <;> simp [RCall.isUpdateSettings]
      intro _ _ _ _
      exact emitsOnly_pure _ _

/-! ## The checksum check guards every emitted `InstallCode` -/

/-- Every `InstallCode` call emitted by a `Create` run carries wasm bytes
that passed the checksum check against the planned `wasm_sha256`. -/
theorem emitsOnly_Create_sha (env : Env) (data : CanisterResourceModel) :
    EmitsOnly (Create env data)
      (fun c => ∀ p m w a, c = RCall.installCode p m w a →
        (data.wasmSha256.valueString.length = 0 ∨
         data.wasmSha256.valueString = env.sha256hex w)) := by
  unfold Create
  simp only [ES.bind_eq, ES.pure_eq]
  apply emitsOnly_bind (emitsOnly_callR (by intro p m w a h; simp at h))
  intro cid _ _ _
  apply emitsOnly_bind (emitsOnly_wrap (emitsOnly_liftE _ _))
  intro argHex _ _ _
  apply emitsOnly_bind
  · apply emitsOnly_ite
    · apply emitsOnly_wrap
      apply emitsOnly_mono (emitsOnly_setCanisterCode env cid argHex _ _)
      rintro c (⟨p, rfl⟩ | ⟨p, m, w, a, rfl, hsha⟩)
      · intro p m w a h; simp at h
      · intro p2 m2 w2 a2 h
        cases h
        exact hsha
    · exact emitsOnly_pure _ _
  intro _ _ _ _
  apply emitsOnly_bind
  · apply emitsOnly_wrap
    apply emitsOnly_mono (emitsOnly_ReadCanisterInfo env cid)
    rintro c (⟨p, rfl⟩ | ⟨p, rfl⟩) <;> (intro p2 m2 w2 a2 h; simp at h)
  intro info _ _ _
  apply emitsOnly_bind (emitsOnly_wrap (emitsOnly_liftE _ _))
  intro ctrlOpt _ _ _
  cases ctrlOpt with
  | none => exact emitsOnly_esFail _ _
  | some cs =>
    apply emitsOnly_bind
    · apply emitsOnly_wrap
      apply emitsOnly_mono (emitsOnly_setCanisterControllers env cid cs)
      rintro c ⟨p, l, rfl⟩
      intro p2 m2 w2 a2 h
      simp at h
    intro _ _ _ _
    exact emitsOnly_pure _ _

/-- Every `InstallCode` call emitted by an `Update` run carries wasm bytes
that passed the checksum check against the planned `wasm_sha256`. -/
theorem emitsOnly_Update_sha (env : Env) (data : CanisterResourceModel) :
    EmitsOnly (Update env data)
      (fun c => ∀ p m w a, c = RCall.installCode p m w a →
        (data.wasmSha256.valueString.length = 0 ∨
         data.wasmSha256.valueString = env.sha256hex w)) := by
  unfold Update
  simp only [ES.bind_eq, ES.pure_eq]
  apply emitsOnly_bind (emitsOnly_wrap (emitsOnly_liftE _ _))
  intro ctrlOpt _ _ _
  cases ctrlOpt with
  | none => exact emitsOnly_esFail _ _
  | some cs =>
    apply emitsOnly_bind
    · apply emitsOnly_wrap
      apply emitsOnly_mono (emitsOnly_setCanisterControllers env _ cs)
      rintro c ⟨p, l, rfl⟩
      intro p2 m2 w2 a2 h
      simp at h
    intro _ _ _ _
    apply emitsOnly_ite
    · apply emitsOnly_bind
      · apply emitsOnly_wrap
        apply emitsOnly_mono (emitsOnly_setCanisterEmpty env _)
        rintro c ⟨p, rfl⟩
        intro p2 m2 w2 a2 h
        simp at h
      intro _ _ _ _
      exact emitsOnly_pure _ _
    · apply emitsOnly_bind (emitsOnly_wrap (emitsOnly_liftE _ _))
      intro argHex2 _ _ _
      apply emitsOnly_bind
      · apply emitsOnly_wrap
        apply emitsOnly_mono (emitsOnly_setCanisterCode env _ argHex2 _ _)
        rintro c (⟨p, rfl⟩ | ⟨p, m, w, a, rfl, hsha⟩)
        · intro p2 m2 w2 a2 h; simp at h
        · intro p2 m2 w2 a2 h
          cases h
          exact hsha
      intro _ _ _ _
      exact emitsOnly_pure _ _

/-! ## Small string facts and run lemmas -/

theorem length_pos_of_ne_empty {s : String} (h : s ≠ "") : 0 < s.length := by
  rcases s with ⟨cs⟩
  cases cs with
  | nil => exact absurd rfl h
  | cons c cs => simp [String.length]

theorem eq_empty_of_length_zero {s : String} (h : s.length = 0) : s = "" := by
  rcases s with ⟨cs⟩
  cases cs with
  | nil => rfl
  | cons c cs => simp [String.length] at h

/-- Evaluation of a fully successful `InferInstallMode` run: one module-hash
read, and the mode selected by whether the hash is empty. -/
theorem InferInstallMode_run (env : Env) (cid cidP : String) (h : List Nat)
    (h1 : env.decodePrincipal cid = Except.ok cidP) (h2 : env.newAgent = Except.ok ())
    (h3 : env.getModuleHash cidP = Except.ok h) (t0 : List RCall) :
    InferInstallMode env cid t0 =
      (t0 ++ [RCall.getModuleHash cidP],
       Except.ok (if h.length = 0 then CanisterInstallModeInstall else CanisterInstallModeUpgrade)) := by
  unfold InferInstallMode
  simp only [ES.bind_eq, ES.pure_eq]
  simp [ES.bind, wrap, wrapErrE, liftE, callR, h1, h2, h3]
  split <;> rfl

/-- Evaluation of `setCanisterCode` up to the install call, when every
local step succeeds and the checksum check passes. -/
theorem setCanisterCode_run (env : Env) (cid argHex wasmFile s cidP : String)
    (h : List Nat) (w argRaw : List Nat)
    (h1 : env.decodePrincipal cid = Except.ok cidP) (h2 : env.newAgent = Except.ok ())
    (h3 : env.getModuleHash cidP = Except.ok h) (h4 : env.readFile wasmFile = Except.ok w)
    (h5 : s = "" ∨ s = env.sha256hex w) (h6 : hexDecode argHex = Except.ok argRaw)
    (t0 : List RCall) :
    setCanisterCode env cid argHex wasmFile s t0 =
      (t0 ++ [RCall.getModuleHash cidP,
              RCall.installCode cidP
                (if h.length = 0 then CanisterInstallModeInstall else CanisterInstallModeUpgrade)
                w argRaw],
       wrapErrE "Could not install code: "
         (env.installCode cidP
            (if h.length = 0 then CanisterInstallModeInstall else CanisterInstallModeUpgrade)
            w argRaw)) := by
  have hIM := InferInstallMode_run env cid cidP h h1 h2 h3 t0
  unfold setCanisterCode
  simp only [ES.bind_eq, ES.pure_eq]
  rcases h5 with rfl | hs
  · simp [ES.bind, wrap, wrapErrE, liftE, callR, ES.pure, hIM, h2, h1, h4, h6]
  · by_cases hl : 0 < s.length
    · simp [ES.bind, wrap, wrapErrE, liftE, callR, ES.pure, esFail, hIM, h2, h1, h4, h6, hl, hs]
    · simp [ES.bind, wrap, wrapErrE, liftE, callR, ES.pure, hIM, h2, h1, h4, h6, hl]

/-- When the supplied checksum is non-empty and differs from the digest of
the wasm file's bytes, `setCanisterCode` fails and never issues an
`InstallCode` call. -/
theorem setCanisterCode_mismatch (env : Env) (cid argHex wasmFile s : String)
    (w : List Nat) (t0 : List RCall)
    (hw : env.readFile wasmFile = Except.ok w) (hs : s ≠ "") (hneq : s ≠ env.sha256hex w) :
    ∃ d e, setCanisterCode env cid argHex wasmFile s t0 = (t0 ++ d, Except.error e) ∧
      ∀ c ∈ d, c.isInstallCode = false := by
  have hlen : 0 < s.length := length_pos_of_ne_empty hs
  obtain ⟨dIM, hdIM, hpIM⟩ := emitsOnly_InferInstallMode env cid t0
  rcases hIM : InferInstallMode env cid t0 with ⟨tIM, rIM⟩
  rw [hIM] at hdIM
  simp only at hdIM
  have hno : ∀ c ∈ dIM, c.isInstallCode = false := by
    intro c hc
    obtain ⟨p, rfl⟩ := hpIM c hc
    rfl
  unfold setCanisterCode
  simp only [ES.bind_eq, ES.pure_eq]
  cases rIM with
  | error e =>
    refine ⟨dIM, GoErr.wrapped "Could not infer install mode: " e, ?_, hno⟩
    simp [ES.bind, wrap, wrapErrE, hIM, hdIM]
  | ok mode =>
    cases hA : env.newAgent with
    | error e =>
      refine ⟨dIM, GoErr.wrapped "Could not create agent: " e, ?_, hno⟩
      simp [ES.bind, wrap, wrapErrE, liftE, hIM, hdIM, hA]
    | ok u =>
      cases hD : env.decodePrincipal cid with
      | error e =>
        refine ⟨dIM, GoErr.wrapped "Could not decode principal: " e, ?_, hno⟩
        simp [ES.bind, wrap, wrapErrE, liftE, hIM, hdIM, hA, hD]
      | ok cidP =>
        refine ⟨dIM, GoErr.msg ("Sha256 mismatch, expected " ++ s ++ ", got " ++ env.sha256hex w), ?_, hno⟩
        simp [ES.bind, wrap, wrapErrE, liftE, esFail, hIM, hdIM, hA, hD, hw, hlen, hneq]

/-! ## Concrete oracle environments and plans used for witnesses -/

/-- An environment in which every collaborator call succeeds: a fresh
canister `cid0`, an empty module hash, file bytes `[0, 1]` whose digest is
reported as `aa`, and identity-preserving principal decoding. -/
def envAllOk : Env where
  providerPrincipal := "pp"
  createCanister := Except.ok "cid0"
  newAgent := Except.ok ()
  decodePrincipal := fun s => Except.ok s
  readFile := fun _ => Except.ok [0, 1]
  sha256hex := fun _ => "aa"
  getModuleHash := fun _ => Except.ok []
  getControllers := fun _ => Except.ok ["pp"]
  installCode := fun _ _ _ _ => Except.ok ()
  uninstallCode := fun _ => Except.ok ()
  updateSettings := fun _ _ => Except.ok ()
  stopCanister := fun _ => Except.ok ()
  deleteCanister := fun _ => Except.ok ()
  marshal := fun _ => Except.ok []

/-- Like `envAllOk`, but the canister already has a non-empty module hash. -/
def envUpgrade : Env :=
  { envAllOk with getModuleHash := fun _ => Except.ok [1, 2] }

/-- Like `envAllOk`, but principal decoding fails (e.g. a malformed
textual identifier). -/
def envBadDecode : Env :=
  { envAllOk with decodePrincipal := fun _ => Except.error (GoErr.msg "illegal base32 data") }

/-- A plan with no attribute set: no code, no argument, no controllers. -/
def planBare : CanisterResourceModel :=
  { id := .null, controllers := .null, arg := .null, argHex := .null,
    wasmFile := .null, wasmSha256 := .null }

/-- An update plan for canister `cid0` with a wasm file, no argument and no
checksum, and an explicit controller list. -/
def planWithWasm : CanisterResourceModel :=
  { id := .value "cid0", controllers := .value ["pp"], arg := .null, argHex := .null,
    wasmFile := .value "f.wasm", wasmSha256 := .null }

/-- The state stored by a successful `Create` of `planBare` under
`envAllOk`. -/
def createdBare : CanisterResourceModel :=
  { id := .value "cid0", controllers := .value ["pp"], arg := .null, argHex := .null,
    wasmFile := .null, wasmSha256 := .value "" }

/-- Symbolic evaluation of `GetArgHex` when `arg` holds a value and
`arg_hex` is null: convert, marshal, hex encode. -/
theorem GetArgHex_value (env : Env) (idv : TFString) (cl : TFList) (wf ws : TFString)
    (tfVal : TFVal) :
    GetArgHex env { id := idv, controllers := cl, arg := .value tfVal, argHex := .null,
                    wasmFile := wf, wasmSha256 := ws } =
      (match TFValToCandid tfVal with
       | Except.error e => Except.error (GoErr.enc e)
       | Except.ok dv =>
         match env.marshal dv with
         | Except.error e => Except.error e
         | Except.ok didEncoded => Except.ok (hexEncode didEncoded)) := by
  unfold GetArgHex
  simp only [TFString.isNull]
  rfl

/-- `StringControllers` after `InferDefaultControllers` always yields a
known list: the provider principal when the input controllers were null or
unknown, the input list otherwise. -/
theorem stringControllers_inferDefault (dataX : CanisterResourceModel) (env : Env) :
    StringControllers (InferDefaultControllers dataX env) =
      Except.ok (some (match dataX.controllers with
        | TFList.null => [env.providerPrincipal]
        | TFList.unknown => [env.providerPrincipal]
        | TFList.value l => l)) := by
  unfold StringControllers
  rw [inferDefaultControllers_controllers]
  cases hc : dataX.controllers <;> rfl

/-- The model threaded through `Create` up to the controllers step only has
its `id` and possibly `wasmSha256` fields overwritten; its `controllers`
field is the planned one. -/
theorem create_intermediate_controllers (data : CanisterResourceModel) (cid sha : String)
    (c : Prop) [Decidable c] :
    ((if c then { { data with id := TFString.value cid } with wasmSha256 := TFString.value sha }
      else { data with id := TFString.value cid }) : CanisterResourceModel).controllers
      = data.controllers := by
  split <;> rfl

/-! ## Claim theorems -/

/-- C1 (amended): for every code install performed through
`setCanisterCode` (the install path shared by `Create` and `Update`), the
issued `InstallCode` carries mode `Install` when the currently read module
hash is empty and mode `Upgrade` otherwise — and that `Upgrade` mode sets
`skip_pre_upgrade` explicitly to `false`, so the pre-upgrade hook is NOT
skipped. -/
theorem install_mode_inferred_from_module_hash (env : Env)
    (cid argHex wasmFile s cidP : String) (h w argRaw : List Nat)
    (h1 : env.decodePrincipal cid = Except.ok cidP) (h2 : env.newAgent = Except.ok ())
    (h3 : env.getModuleHash cidP = Except.ok h) (h4 : env.readFile wasmFile = Except.ok w)
    (h5 : s = "" ∨ s = env.sha256hex w) (h6 : hexDecode argHex = Except.ok argRaw)
    (t0 : List RCall) :
    setCanisterCode env cid argHex wasmFile s t0 =
      (t0 ++ [RCall.getModuleHash cidP,
              RCall.installCode cidP
                (if h.length = 0 then CanisterInstallModeInstall else CanisterInstallModeUpgrade)
                w argRaw],
       wrapErrE "Could not install code: "
         (env.installCode cidP
            (if h.length = 0 then CanisterInstallModeInstall else CanisterInstallModeUpgrade)
            w argRaw))
    ∧ CanisterInstallModeUpgrade.upgrade =
        some (some { skipPreUpgrade := some false, wasmMemoryPersistence := none })
    ∧ skipsPreUpgradeHook CanisterInstallModeUpgrade = false :=
  ⟨setCanisterCode_run env cid argHex wasmFile s cidP h w argRaw h1 h2 h3 h4 h5 h6 t0, rfl, rfl⟩

/-- C1 (witness): concrete run against a canister whose module hash is
`[1, 2]`: the install is issued with mode `Upgrade`, which does not skip
the pre-upgrade hook. -/
theorem install_mode_inferred_from_module_hash_witness :
    setCanisterCode envUpgrade "cid0" "" "f.wasm" "" [] =
      ([RCall.getModuleHash "cid0",
        RCall.installCode "cid0" CanisterInstallModeUpgrade [0, 1] []],
       wrapErrE "Could not install code: "
         (envUpgrade.installCode "cid0" CanisterInstallModeUpgrade [0, 1] []))
    ∧ CanisterInstallModeUpgrade.upgrade =
        some (some { skipPreUpgrade := some false, wasmMemoryPersistence := none })
    ∧ skipsPreUpgradeHook CanisterInstallModeUpgrade = false :=
  install_mode_inferred_from_module_hash envUpgrade "cid0" "" "f.wasm" "" "cid0"
    [1, 2] [0, 1] [] rfl rfl rfl rfl (Or.inl rfl) rfl []

/-- C1 (counterexample): an `Update` run against a canister with a
non-empty module hash issues its install with mode `Upgrade`, and that mode
does not skip the pre-upgrade hook (`skip_pre_upgrade` is set to `false`),
contradicting the claim that the hook is skipped. -/
theorem update_upgrade_does_not_skip_pre_upgrade_hook :
    Update envUpgrade planWithWasm [] =
      ([RCall.updateSettings "cid0" ["pp"], RCall.getModuleHash "cid0",
        RCall.installCode "cid0" CanisterInstallModeUpgrade [0, 1] []],
       Except.ok planWithWasm)
    ∧ skipsPreUpgradeHook CanisterInstallModeUpgrade = false :=
  ⟨rfl, rfl⟩

/-- C3: (i) a non-empty `wasm_sha256` differing from the digest of the wasm
file's bytes makes `setCanisterCode` fail without issuing any `InstallCode`
call; (ii) and (iii): in every `Create` and every `Update` run, any issued
`InstallCode` call carries bytes whose digest matches the planned checksum
(or the checksum was empty) — the check guards every install, not only the
first. -/
theorem wasm_sha256_mismatch_aborts_install :
    (∀ (env : Env) (cid argHex wasmFile s : String) (w : List Nat) (t0 : List RCall),
       env.readFile wasmFile = Except.ok w → s ≠ "" → s ≠ env.sha256hex w →
       ∃ d e, setCanisterCode env cid argHex wasmFile s t0 = (t0 ++ d, Except.error e) ∧
         ∀ c ∈ d, c.isInstallCode = false)
    ∧ (∀ (env : Env) (data : CanisterResourceModel) (c : RCall),
         c ∈ (Create env data []).1 → ∀ p m w a, c = RCall.installCode p m w a →
         (data.wasmSha256.valueString = "" ∨ data.wasmSha256.valueString = env.sha256hex w))
    ∧ (∀ (env : Env) (data : CanisterResourceModel) (c : RCall),
         c ∈ (Update env data []).1 → ∀ p m w a, c = RCall.installCode p m w a →
         (data.wasmSha256.valueString = "" ∨ data.wasmSha256.valueString = env.sha256hex w)) := by
  refine ⟨fun env cid aH wF s w t0 hw hs hneq =>
    setCanisterCode_mismatch env cid aH wF s w t0 hw hs hneq, ?_, ?_⟩
  · intro env data c hc p m w a hceq
    obtain ⟨d, hd, hp⟩ := emitsOnly_Create_sha env data []
    rw [hd] at hc
    rcases hp c (by simpa using hc) p m w a hceq with hlen | hsha
    · exact Or.inl (eq_empty_of_length_zero hlen)
    · exact Or.inr hsha
  · intro env data c hc p m w a hceq
    obtain ⟨d, hd, hp⟩ := emitsOnly_Update_sha env data []
    rw [hd] at hc
    rcases hp c (by simpa using hc) p m w a hceq with hlen | hsha
    · exact Or.inl (eq_empty_of_length_zero hlen)
    · exact Or.inr hsha

/-- C3 (witness): with file bytes digesting to `aa` and supplied checksum
`bb`, `setCanisterCode` fails without issuing an `InstallCode`. -/
theorem wasm_sha256_mismatch_aborts_install_witness :
    ∃ d e, setCanisterCode envAllOk "cid0" "" "f.wasm" "bb" [] = ([] ++ d, Except.error e) ∧
      ∀ c ∈ d, c.isInstallCode = false :=
  wasm_sha256_mismatch_aborts_install.1 envAllOk "cid0" "" "f.wasm" "bb" [0, 1] []
    rfl (by decide) (by decide)

/-- C4: within one lifecycle operation the sub-steps keep their fixed
order: in every `Create` trace each `InstallCode` precedes each
`UpdateSettings`, and in every `Update` trace each `UpdateSettings`
precedes each code-facet call (install or uninstall). -/
theorem lifecycle_substep_order (env : Env) (data : CanisterResourceModel) :
    before (fun c => c.isInstallCode = true) (fun c => c.isUpdateSettings = true)
      (Create env data []).1
    ∧ before (fun c => c.isUpdateSettings = true) (fun c => c.isCodeFacet = true)
      (Update env data []).1 := by
  constructor
  · obtain ⟨d1, d2, h, h1, h2⟩ := splitEmits_Create env data []
    have hb := before_of_split h1 h2
    rw [h]
    simpa using hb
  · obtain ⟨d1, d2, h, h1, h2⟩ := splitEmits_Update env data []
    have hb := before_of_split h1 h2
    rw [h]
    simpa using hb

/-- C4 (witness): the fixed sub-step order at a concrete environment and
plan. -/
theorem lifecycle_substep_order_witness :
    before (fun c => c.isInstallCode = true) (fun c => c.isUpdateSettings = true)
      (Create envAllOk planBare []).1
    ∧ before (fun c => c.isUpdateSettings = true) (fun c => c.isCodeFacet = true)
      (Update envAllOk planBare []).1 :=
  lifecycle_substep_order envAllOk planBare

/-- C7: `ImportState` with an identifier whose principal decoding fails
returns with the id attribute set but with NO error diagnostic — the
failure is only written to the log.  This contradicts the documented
propagation policy (errors are never swallowed) and the code's own
treatment of every other failure in the same function, which adds an error
diagnostic. -/
theorem importState_swallows_decode_failure :
    ImportState envBadDecode "not-a-principal" [] =
      ([], { idSet := some "not-a-principal", wasmSha256Set := none, controllersSet := none,
             errors := [], logs := ["Cannot decode principal"] }) :=
  rfl

/-- C8 (amended): when neither `arg` nor `arg_hex` is set, the argument is
the empty hex string, so the buffer passed to the install call is the empty
byte string (the documented "empty blob") — which is not an encoded candid
`null`, but also not the 6-byte canonical candid empty-argument-list
encoding `4449444c0000`. -/
theorem empty_arg_encodes_to_empty_blob (env : Env) (idv : TFString) (cl : TFList)
    (wf ws : TFString) :
    GetArgHex env { id := idv, controllers := cl, arg := .null, argHex := .null,
                    wasmFile := wf, wasmSha256 := ws } = Except.ok ""
    ∧ hexDecode "" = Except.ok []
    ∧ ([] : List Nat) ≠ didlNullArg
    ∧ ([] : List Nat) ≠ didlEmptyArgs := by
  refine ⟨?_, rfl, by decide, by decide⟩
  unfold GetArgHex
  simp [TFString.isNull]

/-- C8 (amended, witness): the empty-argument default at a concrete
environment and model. -/
theorem empty_arg_encodes_to_empty_blob_witness :
    GetArgHex envAllOk { id := .null, controllers := .null, arg := .null, argHex := .null,
                         wasmFile := .null, wasmSha256 := .null } = Except.ok ""
    ∧ hexDecode "" = Except.ok []
    ∧ ([] : List Nat) ≠ didlNullArg
    ∧ ([] : List Nat) ≠ didlEmptyArgs :=
  empty_arg_encodes_to_empty_blob envAllOk .null .null .null .null

/-- C8 (counterexample): with no argument configured, the install call is
issued with the empty byte buffer, which differs from the canonical candid
empty-argument-list encoding `DIDL 00 00`. -/
theorem empty_arg_install_buffer_not_didl :
    setCanisterCode envAllOk "cid0" "" "f.wasm" "" [] =
      ([RCall.getModuleHash "cid0", RCall.installCode "cid0" CanisterInstallModeInstall [0, 1] []],
       Except.ok ())
    ∧ ([] : List Nat) ≠ didlEmptyArgs :=
  ⟨rfl, by decide⟩

/-- C9: `NewIdentityFromPEM` tries Ed25519, then secp256k1, then
prime256v1, in that order; it returns the first successful parse, and when
all three fail it returns the single error joining the three parse
failures. -/
theorem newIdentityFromPEM_order {Identity : Type}
    (pEd pSecp pPrime : List Nat → Except GoErr Identity) (data : List Nat) :
    (∀ i, pEd data = Except.ok i →
       NewIdentityFromPEM pEd pSecp pPrime data = Except.ok i)
    ∧ (∀ e1 i, pEd data = Except.error e1 → pSecp data = Except.ok i →
       NewIdentityFromPEM pEd pSecp pPrime data = Except.ok i)
    ∧ (∀ e1 e2 i, pEd data = Except.error e1 → pSecp data = Except.error e2 →
       pPrime data = Except.ok i →
       NewIdentityFromPEM pEd pSecp pPrime data = Except.ok i)
    ∧ (∀ e1 e2 e3, pEd data = Except.error e1 → pSecp data = Except.error e2 →
       pPrime data = Except.error e3 →
       NewIdentityFromPEM pEd pSecp pPrime data = Except.error (GoErr.joined [e1, e2, e3])) := by
  refine ⟨?_, ?_, ?_, ?_⟩ <;> (intros ; unfold NewIdentityFromPEM ; simp_all)

/-- C9 (witness): when all three schemes fail, the result is the joined
error of the three failures, in scheme order. -/
theorem newIdentityFromPEM_order_witness :
    NewIdentityFromPEM
      (fun _ => (Except.error (GoErr.msg "e1") : Except GoErr Unit))
      (fun _ => Except.error (GoErr.msg "e2"))
      (fun _ => Except.error (GoErr.msg "e3")) [] =
      Except.error (GoErr.joined [GoErr.msg "e1", GoErr.msg "e2", GoErr.msg "e3"]) :=
  (newIdentityFromPEM_order _ _ _ []).2.2.2 _ _ _ rfl rfl rfl

/-- C10: an `Update` whose planned controllers are null or unknown fails
with the "Controllers not set" error before issuing any remote call (the
trace stays empty), and returns before `resp.State.Set`, leaving the
persisted state unchanged; it does not default the controllers the way
`Create` does. -/
theorem update_unset_controllers_fails (env : Env) (data : CanisterResourceModel)
    (h : data.controllers = TFList.null ∨ data.controllers = TFList.unknown) :
    Update env data [] = ([], Except.error (GoErr.msg "Controllers not set")) := by
  unfold Update
  simp only [ES.bind_eq, ES.pure_eq]
  rcases h with h | h <;>
    simp [ES.bind, wrap, wrapErrE, liftE, esFail, StringControllers, h]

/-- C10 (witness): the bare plan (null controllers) makes `Update` fail
immediately with no remote call. -/
theorem update_unset_controllers_fails_witness :
    Update envAllOk planBare [] = ([], Except.error (GoErr.msg "Controllers not set")) :=
  update_unset_controllers_fails envAllOk planBare (Or.inl rfl)

/-- C5: after every successful `Create`, the stored controllers attribute
is neither null nor unknown; and when the plan left the controllers unset
(null or unknown), the stored list is exactly the provider principal and
that single-element list was pushed to the remote canister in an
`UpdateSettings` call.  The side condition `hdec` states that decoding the
provider principal's textual encoding yields it back (principal encoding
is canonical). -/
theorem create_defaults_controllers (env : Env) (data : CanisterResourceModel)
    (t : List RCall) (d' : CanisterResourceModel)
    (hok : Create env data [] = (t, Except.ok d'))
    (hdec : env.decodePrincipal env.providerPrincipal = Except.ok env.providerPrincipal) :
    (d'.controllers.isNull = false ∧ d'.controllers.isUnknown = false)
    ∧ ((data.controllers = TFList.null ∨ data.controllers = TFList.unknown) →
        d'.controllers = TFList.value [env.providerPrincipal]
        ∧ ∃ cidP, RCall.updateSettings cidP [env.providerPrincipal] ∈ t) := by
  unfold Create at hok
  simp only [ES.bind_eq, ES.pure_eq] at hok
  obtain ⟨t1, cid, hcreate, hok⟩ := ES.bind_ok hok
  obtain ⟨t2, argHex, hargs, hok⟩ := ES.bind_ok hok
  obtain ⟨t3, u3, hinst, hok⟩ := ES.bind_ok hok
  obtain ⟨t4, info, hinfo, hok⟩ := ES.bind_ok hok
  obtain ⟨t5, ctrlOpt, hctrl, hok⟩ := ES.bind_ok hok
  obtain ⟨ht5, hSC⟩ := liftE_ok (wrap_ok hctrl)
  rw [stringControllers_inferDefault] at hSC
  have hco := Except.ok.inj hSC
  subst hco
  obtain ⟨t6, u6, hset, hpure⟩ := ES.bind_ok hok
  obtain ⟨ht6eq, hd'⟩ := ES.pure_ok hpure
  obtain ⟨cidP, csP, hcidP, hcsP, ht6⟩ := setCanisterControllers_ok (wrap_ok hset)
  constructor
  · rw [hd']
    exact inferDefaultControllers_isSet _ env
  · intro hnull
    constructor
    · rw [hd', inferDefaultControllers_controllers, create_intermediate_controllers]
      rcases hnull with h | h <;> rw [h]
    · rw [create_intermediate_controllers] at hcsP
      rcases hnull with h | h <;> rw [h] at hcsP <;>
        (simp [decodePrincipals, hdec] at hcsP
         exact ⟨cidP, by rw [ht6eq, ht6, ← hcsP] ; simp⟩)

/-- C5 (witness): creating from the bare plan (no controllers, no code)
stores exactly the provider principal as controller and pushes it. -/
theorem create_defaults_controllers_witness :
    (createdBare.controllers.isNull = false ∧ createdBare.controllers.isUnknown = false)
    ∧ ((planBare.controllers = TFList.null ∨ planBare.controllers = TFList.unknown) →
        createdBare.controllers = TFList.value [envAllOk.providerPrincipal]
        ∧ ∃ cidP, RCall.updateSettings cidP [envAllOk.providerPrincipal] ∈
            [RCall.createCanister, RCall.getModuleHash "cid0", RCall.getControllers "cid0",
             RCall.updateSettings "cid0" ["pp"]]) :=
  create_defaults_controllers envAllOk planBare
    [RCall.createCanister, RCall.getModuleHash "cid0", RCall.getControllers "cid0",
     RCall.updateSettings "cid0" ["pp"]]
    createdBare rfl rfl

/-- The `{ tag, payload }` wrapper produced by the `did_text` provider
function: an object with `__didType = "text"` and the payload under
`__didValue`. -/
def didTextWrapper (v : String) : TFVal :=
  .obj [("__didType", .str "text"), ("__didValue", .str v)]

/-- A wrapper-shaped object whose tag is neither `"text"` nor `"record"`,
with a record-encodable payload shape. -/
def unknownTagVal : TFVal :=
  .obj [("__didType", .str "nat"), ("__didValue", .str "5")]

/-- C6: encoding the `did_text` wrapper of a string equals encoding the
bare string — the wrapper reading is attempted first and, once the `text`
tag is recognized, it short-circuits the generic record interpretation of
the mapping.  Stated both at the `GetArgHex` level (for any marshalling
oracle) and at the `TFValToCandid` level. -/
theorem encode_text_wrapper_precedence (env : Env) (idv : TFString) (cl : TFList)
    (wf ws : TFString) (v : String) :
    GetArgHex env { id := idv, controllers := cl, arg := .value (didTextWrapper v),
                    argHex := .null, wasmFile := wf, wasmSha256 := ws }
      = GetArgHex env { id := idv, controllers := cl, arg := .value (.str v),
                        argHex := .null, wasmFile := wf, wasmSha256 := ws }
    ∧ TFValToCandid (didTextWrapper v) = Except.ok (CandidVal.text v) := by
  have hw : TFValToCandid (didTextWrapper v) = Except.ok (CandidVal.text v) := by
    unfold didTextWrapper
    rw [TFValToCandid, readWrappedValue]
    simp [lookupField, readTextValue, Except.map]
  have hb : TFValToCandid (TFVal.str v) = Except.ok (CandidVal.text v) := by
    rw [TFValToCandid]
    simp [readWrappedValue, readTextValue]
  refine ⟨?_, hw⟩
  rw [GetArgHex_value, GetArgHex_value, hw, hb]

/-- C6 (witness): wrapper precedence at a concrete environment and
string. -/
theorem encode_text_wrapper_precedence_witness :
    GetArgHex envAllOk { id := .null, controllers := .null, arg := .value (didTextWrapper "v"),
                         argHex := .null, wasmFile := .null, wasmSha256 := .null }
      = GetArgHex envAllOk { id := .null, controllers := .null, arg := .value (.str "v"),
                             argHex := .null, wasmFile := .null, wasmSha256 := .null }
    ∧ TFValToCandid (didTextWrapper "v") = Except.ok (CandidVal.text "v") :=
  encode_text_wrapper_precedence envAllOk .null .null .null .null "v"

/-- C2 (amended): when a mapping carries both reserved keys and the tag is
neither `"text"` nor `"record"`, the wrapper reader fails with an error
naming the tag, but `TFValToCandid` then falls back to the generic record
interpretation of the mapping; only when that fallback (and the text
reading) also fails does `Encode` return an error — the aggregate that
includes the unknown-tag error. -/
theorem unknown_tag_wrapper_fallback (fields : List (String × TFVal)) (tag : String)
    (payload : TFVal)
    (hty : lookupField fields "__didType" = some (.str tag))
    (hval : lookupField fields "__didValue" = some payload)
    (h1 : tag ≠ "text") (h2 : tag ≠ "record") :
    readWrappedValue (.obj fields) = Except.error (.unknownIdlType tag (.obj fields))
    ∧ TFValToCandid (.obj fields) =
        (match readRecordFields fields with
         | Except.ok m => Except.ok (CandidVal.record m)
         | Except.error errRec =>
           Except.error (.cannotEncode (.obj fields) (.unknownIdlType tag (.obj fields))
             (.notAString (.obj fields)) errRec)) := by
  have hwr : readWrappedValue (.obj fields) = Except.error (.unknownIdlType tag (.obj fields)) := by
    rw [readWrappedValue, hty, hval]
    simp [readTextValue, h1, h2]
  refine ⟨hwr, ?_⟩
  rw [TFValToCandid, hwr]
  simp only [readTextValue, readRecordValue]

/-- C2 (amended, witness): with tag `"nat"` and a string payload, the
wrapper reader errors naming `"nat"`, and the conversion falls back to the
record interpretation of the mapping. -/
theorem unknown_tag_wrapper_fallback_witness :
    readWrappedValue unknownTagVal = Except.error (.unknownIdlType "nat" unknownTagVal)
    ∧ TFValToCandid unknownTagVal =
        (match readRecordFields [("__didType", TFVal.str "nat"), ("__didValue", TFVal.str "5")] with
         | Except.ok m => Except.ok (CandidVal.record m)
         | Except.error errRec =>
           Except.error (.cannotEncode unknownTagVal (.unknownIdlType "nat" unknownTagVal)
             (.notAString unknownTagVal) errRec)) :=
  unknown_tag_wrapper_fallback [("__didType", TFVal.str "nat"), ("__didValue", TFVal.str "5")]
    "nat" (TFVal.str "5") rfl rfl (by decide) (by decide)

/-- C2 (counterexample): `Encode` of the unknown-tag wrapper mapping with a
string payload does NOT return an error: it falls back to the generic
record interpretation and succeeds. -/
theorem unknown_tag_falls_back_to_record :
    TFValToCandid unknownTagVal =
      Except.ok (CandidVal.record [("__didType", CandidVal.text "nat"),
                                   ("__didValue", CandidVal.text "5")])
    ∧ GetArgHex envAllOk { id := .null, controllers := .null, arg := .value unknownTagVal,
                           argHex := .null, wasmFile := .null, wasmSha256 := .null }
        = Except.ok "" := by
  have henc : TFValToCandid unknownTagVal =
      Except.ok (CandidVal.record [("__didType", CandidVal.text "nat"),
                                   ("__didValue", CandidVal.text "5")]) := by
    unfold unknownTagVal
    rw [TFValToCandid, readWrappedValue, readRecordValue, readRecordFields]
    rw [TFValToCandid, readWrappedValue]
    rw [readRecordFields]
    rw [TFValToCandid, readWrappedValue]
    rw [readRecordFields]
    simp [lookupField, readTextValue, readRecordValue, Except.map]
    all_goals simp
  refine ⟨henc, ?_⟩
  rw [GetArgHex_value, henc]
  rfl

end Ic
